import Mathlib

/-!
Shallow embedding of the game engines of `src/main.py` (jogo-qualopais):
the checkers rule engine, the tic-tac-toe rule engine, the room-code
generator, the turn gate, and the bounded session store.

Board cells are the Python strings: checkers cells are one of
`""`, `"b"`, `"B"`, `"g"`, `"G"`; tic-tac-toe cells are `""`, `"X"`, `"O"`.
Boards are insertion-ordered lists indexed with `List.getD`, matching the
index-guarded Python list accesses.
-/

namespace Qualopais

/-- Checkers game state, the fields of the dict built by `_new_checkers_state`. -/
structure CkState where
  blue_name : String
  green_name : String
  board : List String
  turn : String
  selected : Option Nat
  forced_from : Option Nat
  finished : Bool
  winner : Option String
  winner_name : String
  message : String
  score_blue : Nat
  score_green : Nat
  show_overlay : Bool
  deriving Repr, DecidableEq

/-- `_ck_piece_owner`: `"b"` for blue pieces, `"g"` for green pieces, `""` otherwise. -/
def ckPieceOwner (piece : String) : String :=
  if piece = "b" ∨ piece = "B" then "b"
  else if piece = "g" ∨ piece = "G" then "g"
  else ""

/-- `_ck_is_enemy`. -/
def ckIsEnemy (piece player : String) : Bool :=
  ckPieceOwner piece ≠ "" ∧ ckPieceOwner piece ≠ player

/-- `_ck_dirs`: men move toward the opponent's edge, kings in all four diagonals. -/
def ckDirs (piece : String) : List (Int × Int) :=
  if piece = "b" then [(-1, -1), (-1, 1)]
  else if piece = "g" then [(1, -1), (1, 1)]
  else [(-1, -1), (-1, 1), (1, -1), (1, 1)]

/-- `_ck_in_bounds`. -/
def ckInBounds (r c : Int) : Bool :=
  0 ≤ r ∧ r < 8 ∧ 0 ≤ c ∧ c < 8

/-- The moves `_ck_piece_moves` collects for one direction `d`:
first the capture (if the adjacent diagonal holds an enemy and the cell
beyond is empty and in bounds), then, unless `captureOnly`, the simple
step into an empty adjacent diagonal. -/
def ckDirMoves (board : List String) (r c : Int) (player : String)
    (captureOnly : Bool) (d : Int × Int) : List (Nat × Bool) :=
  let r1 := r + d.1
  let c1 := c + d.2
  let r2 := r + 2 * d.1
  let c2 := c + 2 * d.2
  let capPart :=
    if ckInBounds r2 c2 ∧ ckInBounds r1 c1 then
      let m1 := (r1 * 8 + c1).toNat
      let m2 := (r2 * 8 + c2).toNat
      if ckIsEnemy (board.getD m1 "") player ∧ board.getD m2 "" = "" then
        [(m2, true)]
      else []
    else []
  let stepPart :=
    if captureOnly then []
    else if ckInBounds r1 c1 then
      let m1 := (r1 * 8 + c1).toNat
      if board.getD m1 "" = "" then [(m1, false)] else []
    else []
  capPart ++ stepPart

/-- `_ck_piece_moves`. -/
def ckPieceMoves (board : List String) (idx : Nat) (captureOnly : Bool) :
    List (Nat × Bool) :=
  let piece := board.getD idx ""
  if piece = "" then []
  else
    let r : Int := (idx : Int) / 8
    let c : Int := (idx : Int) % 8
    let player := ckPieceOwner piece
    (ckDirs piece).flatMap (ckDirMoves board r c player captureOnly)

/-- The capture list `[m for m in _ck_piece_moves(board, i, capture_only=True) if m[1]]`
computed both in `_ck_legal_moves` and in `_ck_apply_move`. -/
def ckCaptures (board : List String) (idx : Nat) : List (Nat × Bool) :=
  (ckPieceMoves board idx true).filter (fun m => m.2)

/-- The candidate piece set of `_ck_legal_moves`: the `forced_from` cell when
set, otherwise every index of the board holding a piece owned by `turn`. -/
def ckCandidates (s : CkState) : List Nat :=
  match s.forced_from with
  | some f => [f]
  | none =>
      (List.range s.board.length).filter
        (fun i => ckPieceOwner (s.board.getD i "") = s.turn)

/-- The `capture_map` dict of `_ck_legal_moves`, as the insertion-ordered
association list the Python dict holds. -/
def ckCaptureMap (s : CkState) : List (Nat × List (Nat × Bool)) :=
  (ckCandidates s).filterMap (fun i =>
    let caps := ckCaptures s.board i
    if caps.isEmpty then none else some (i, caps))

/-- The `normal_map` dict of `_ck_legal_moves`: the simple steps of the
candidate pieces. -/
def ckNormalMap (s : CkState) : List (Nat × List (Nat × Bool)) :=
  (ckCandidates s).filterMap (fun i =>
    let nm := (ckPieceMoves s.board i false).filter (fun m => ¬m.2)
    if nm.isEmpty then none else some (i, nm))

/-- `_ck_legal_moves`: captures only when any candidate has one, else the
empty map when `forced_from` is set, else the simple steps. -/
def ckLegalMoves (s : CkState) : List (Nat × List (Nat × Bool)) :=
  if ¬(ckCaptureMap s).isEmpty then ckCaptureMap s
  else
    match s.forced_from with
    | some _ => []
    | none => ckNormalMap s

/-- `_ck_current_name`. -/
def ckCurrentName (s : CkState) : String :=
  if s.turn = "b" then s.blue_name else s.green_name

/-- `_ck_finalize_turn_if_needed`. -/
def ckFinalizeTurnIfNeeded (s : CkState) : CkState :=
  let opp := if s.turn = "b" then "g" else "b"
  let oppPieces := s.board.filter (fun p => ckPieceOwner p = opp)
  if oppPieces.isEmpty then
    { s with
      finished := true
      winner := some s.turn
      winner_name := ckCurrentName s
      score_blue := if s.turn = "b" then s.score_blue + 1 else s.score_blue
      score_green := if s.turn = "b" then s.score_green else s.score_green + 1
      show_overlay := true
      message := "Vitória de " ++ ckCurrentName s }
  else
    let s1 : CkState := { s with turn := opp, selected := none, forced_from := none }
    if (ckLegalMoves s1).isEmpty then
      let w := if opp = "b" then "g" else "b"
      let wname := if w = "b" then s1.blue_name else s1.green_name
      { s1 with
        finished := true
        winner := some w
        winner_name := wname
        score_blue := if w = "b" then s1.score_blue + 1 else s1.score_blue
        score_green := if w = "b" then s1.score_green else s1.score_green + 1
        show_overlay := true
        message := "Vitória de " ++ wname }
    else
      { s1 with message := "Vez de " ++ ckCurrentName s1 }

/-- The board after the relocation-and-promotion prefix of `_ck_apply_move`:
the piece leaves `fromIdx`, lands on `toIdx`, and a man reaching the
opponent's back row is replaced by its king. -/
def ckMovedBoard (board : List String) (fromIdx toIdx : Nat) : List String :=
  let piece := board.getD fromIdx ""
  let b := (board.set fromIdx "").set toIdx piece
  if piece = "b" ∧ toIdx / 8 = 0 then b.set toIdx "B"
  else if piece = "g" ∧ toIdx / 8 = 7 then b.set toIdx "G"
  else b

/-- Whether the relocation promotes the moved piece (`promoted` in `_ck_apply_move`). -/
def ckPromotes (piece : String) (toIdx : Nat) : Bool :=
  (piece = "b" ∧ toIdx / 8 = 0) ∨ (piece = "g" ∧ toIdx / 8 = 7)

/-- The jumped cell `(fr + tr) // 2 * 8 + (fc + tc) // 2` of `_ck_apply_move`. -/
def ckMidIdx (fromIdx toIdx : Nat) : Nat :=
  ((fromIdx / 8 + toIdx / 8) / 2) * 8 + (fromIdx % 8 + toIdx % 8) / 2

/-- `_ck_apply_move`. -/
def ckApplyMove (s : CkState) (fromIdx toIdx : Nat) (isCapture : Bool) : CkState :=
  let piece := s.board.getD fromIdx ""
  let board := ckMovedBoard s.board fromIdx toIdx
  let promoted := ckPromotes piece toIdx
  if isCapture then
    let board2 := board.set (ckMidIdx fromIdx toIdx) ""
    if ¬promoted ∧ ¬(ckCaptures board2 toIdx).isEmpty then
      { s with
        board := board2
        forced_from := some toIdx
        selected := some toIdx
        message := "Captura obrigatória: continue com a mesma peça." }
    else
      ckFinalizeTurnIfNeeded { s with board := board2 }
  else
    ckFinalizeTurnIfNeeded { s with board := board }

/-- Target lookup `legal.get(selected, [])` on the legal-move association list. -/
def ckMovesFor (legal : List (Nat × List (Nat × Bool))) (i : Nat) :
    List (Nat × Bool) :=
  match legal.find? (fun e => e.1 = i) with
  | some e => e.2
  | none => []

/-- Key membership `idx in legal` on the legal-move association list. -/
def ckHasKey (legal : List (Nat × List (Nat × Bool))) (i : Nat) : Bool :=
  (legal.find? (fun e => e.1 = i)).isSome

/-- `_ck_click_cell`. -/
def ckClickCell (s : CkState) (idx : Int) : CkState :=
  if s.finished ∨ idx < 0 ∨ 64 ≤ idx then s
  else
    let legal := ckLegalMoves s
    let i := idx.toNat
    match s.selected with
    | none => if ckHasKey legal i then { s with selected := some i } else s
    | some sel =>
        match ((ckMovesFor legal sel).find? (fun m => m.1 = i)) with
        | some m => ckApplyMove s sel i m.2
        | none =>
            if ckHasKey legal i then { s with selected := some i }
            else { s with selected := none }

/-- `CHECKERS_DARK` membership: `(r + c) % 2 == 1`. -/
def ckIsDark (r c : Nat) : Bool := (r + c) % 2 = 1

/-- `_new_checkers_board`. -/
def newCheckersBoard : List String :=
  (List.range 64).map (fun idx =>
    let r := idx / 8
    let c := idx % 8
    if ckIsDark r c then
      if r ≤ 2 then "g" else if 5 ≤ r then "b" else ""
    else "")

/-- `_new_checkers_state` (Python `or` defaulting of the empty name strings). -/
def newCheckersState (blue_name green_name : String) : CkState :=
  { blue_name := if blue_name ≠ "" then blue_name else "Time Azul"
    green_name := if green_name ≠ "" then green_name else "Time Verde"
    board := newCheckersBoard
    turn := "b"
    selected := none
    forced_from := none
    finished := false
    winner := none
    winner_name := ""
    message := "Vez do Time Azul"
    score_blue := 0
    score_green := 0
    show_overlay := false }

/-- Tic-tac-toe game state, the fields of the dict built by `_new_ttt_state`. -/
structure TttState where
  mode : String
  p1_name : String
  p2_name : String
  board : List String
  current : String
  finished : Bool
  winner : Option String
  winner_name : String
  message : String
  score_x : Nat
  score_o : Nat
  score_draw : Nat
  show_overlay : Bool
  deriving Repr, DecidableEq

/-- `TTT_WIN_LINES`. -/
def tttWinLines : List (Nat × Nat × Nat) :=
  [(0, 1, 2), (3, 4, 5), (6, 7, 8),
   (0, 3, 6), (1, 4, 7), (2, 5, 8),
   (0, 4, 8), (2, 4, 6)]

/-- One line test of `_ttt_check_winner`:
`board[a] and board[a] == board[b] == board[c]`. -/
def tttLineWin (board : List String) (l : Nat × Nat × Nat) : Bool :=
  board.getD l.1 "" ≠ "" ∧ board.getD l.1 "" = board.getD l.2.1 "" ∧
    board.getD l.2.1 "" = board.getD l.2.2 ""

/-- `_ttt_check_winner`: the symbol of the first winning line, if any. -/
def tttCheckWinner (board : List String) : Option String :=
  tttWinLines.findSome? (fun l =>
    if tttLineWin board l then some (board.getD l.1 "") else none)

/-- `_ttt_name_for_symbol`. -/
def tttNameForSymbol (s : TttState) (symbol : String) : String :=
  if symbol = "X" then s.p1_name else s.p2_name

/-- `_ttt_finalize`. -/
def tttFinalize (s : TttState) : TttState :=
  match tttCheckWinner s.board with
  | some w =>
      { s with
        finished := true
        winner := some w
        winner_name := tttNameForSymbol s w
        show_overlay := true
        score_x := if w = "X" then s.score_x + 1 else s.score_x
        score_o := if w = "X" then s.score_o else s.score_o + 1
        message := "Vitória de " ++ tttNameForSymbol s w ++ " (" ++ w ++ ")" }
  | none =>
      if s.board.all (fun cell => cell ≠ "") then
        { s with
          finished := true
          winner := some "draw"
          winner_name := "Empate"
          score_draw := s.score_draw + 1
          show_overlay := true
          message := "Empate!" }
      else
        { s with
          finished := false
          winner := none
          winner_name := ""
          show_overlay := false
          message := "Vez de " ++ tttNameForSymbol s s.current ++
            " (" ++ s.current ++ ")" }

/-- `_ttt_do_move`. -/
def tttDoMove (s : TttState) (pos : Int) : TttState :=
  if s.finished then s
  else if pos < 0 ∨ 9 ≤ pos ∨ s.board.getD pos.toNat "" ≠ "" then s
  else
    let s1 := tttFinalize { s with board := s.board.set pos.toNat s.current }
    if s1.finished then s1
    else
      tttFinalize { s1 with current := if s1.current = "X" then "O" else "X" }

/-- `_new_ttt_state` (Python `or` defaulting of the empty name strings). -/
def newTttState (mode p1_name p2_name : String) : TttState :=
  { mode := mode
    p1_name := if p1_name ≠ "" then p1_name else "Jogador 1"
    p2_name :=
      if p2_name ≠ "" then p2_name
      else if mode = "solo" then "Computador" else "Jogador 2"
    board := List.replicate 9 ""
    current := "X"
    finished := false
    winner := none
    winner_name := ""
    message := "Vez de X"
    score_x := 0
    score_o := 0
    score_draw := 0
    show_overlay := false }

/-- States reachable from a fresh tic-tac-toe session by `_ttt_do_move` calls. -/
inductive TttReachable : TttState → Prop
  | init (mode p1 p2 : String) : TttReachable (newTttState mode p1 p2)
  | step (s : TttState) (pos : Int) :
      TttReachable s → TttReachable (tttDoMove s pos)

/-- A checkers room entry of `CHECKERS_ROOM_STORE`. -/
structure CkRoom where
  checkers_id : String
  green_joined : Bool
  deriving Repr, DecidableEq

/-- `_checkers_room_ready`. -/
def checkersRoomReady (room : CkRoom) : Bool :=
  room.green_joined

/-- `_checkers_room_can_play`: the turn gate of the checkers session.
`role` is the session's `ck_room_role` entry (`none` when absent). -/
def checkersRoomCanPlay (state : CkState) (room : Option CkRoom)
    (role : Option String) : Bool :=
  match room with
  | none => true
  | some rm =>
      if ¬checkersRoomReady rm then false
      else if ¬(role = some "b" ∨ role = some "g") then false
      else some state.turn = role

/-- The state transition of the `checkers_click` route: when a room is bound
and the gate denies the role, the handler returns before touching the
state; otherwise `_ck_click_cell` runs and the result is saved. -/
def checkersClickRoute (state : CkState) (room : Option CkRoom)
    (role : Option String) (idx : Int) : CkState :=
  if room.isSome ∧ ¬checkersRoomCanPlay state room role then state
  else ckClickCell state idx

/-- The state reset of the `checkers_next` route (when the role gate passes;
a denied request leaves the state untouched). -/
def checkersNextRoute (state : CkState) (roomBound : Bool)
    (role : Option String) : CkState :=
  if roomBound ∧ role ≠ some "b" then state
  else
    { state with
      board := newCheckersBoard
      turn := "b"
      selected := none
      forced_from := none
      finished := false
      winner := none
      winner_name := ""
      show_overlay := false
      message := "Vez de " ++ state.blue_name }

/-- The state update of the `checkers_overlay_dismiss` route. -/
def checkersOverlayDismissRoute (state : CkState) : CkState :=
  { state with show_overlay := false }

/-- The session-state update of the `checkers_room_join` route. -/
def checkersRoomJoinStateUpdate (state : CkState) (green_name : String) :
    CkState :=
  let gname := if green_name ≠ "" then green_name else "Time Verde"
  let state := { state with green_name := gname }
  { state with message := "Partida iniciada. Vez de " ++ ckCurrentName state }

/-- The state reset of the `tictactoe_next` route (when the role gate passes;
a denied request leaves the state untouched). -/
def tttNextRoute (state : TttState) (roomBound : Bool)
    (role : Option String) : TttState :=
  if roomBound ∧ role ≠ some "X" then state
  else
    { state with
      board := List.replicate 9 ""
      current := "X"
      finished := false
      winner := none
      winner_name := ""
      show_overlay := false
      message := "Vez de " ++ state.p1_name ++ " (X)" }

/-- The state update of the `tictactoe_overlay_dismiss` route. -/
def tttOverlayDismissRoute (state : TttState) : TttState :=
  { state with show_overlay := false }

/-- The session-state update of the `tictactoe_room_join` route. -/
def tttRoomJoinStateUpdate (state : TttState) (p2_name : String) : TttState :=
  let pname := if p2_name ≠ "" then p2_name else "Jogador O"
  { state with
    mode := "versus"
    p2_name := pname
    message := "Vez de " ++ state.p1_name ++ " (X)" }

/-- `_new_room_code`, with the randomness made explicit: `draws` is the
sequence of 6-character codes the 200 loop iterations would draw from
`random.choice`, `fallback` the `uuid.uuid4().hex[:6].upper()` token.
The loop returns the first draw absent from all three room stores;
exhaustion returns the fallback unchecked. -/
def newRoomCode (roomCodes ckCodes tttCodes : List String)
    (draws : List String) (fallback : String) : String :=
  match draws.find? (fun code =>
      ¬(roomCodes.contains code ∨ ckCodes.contains code ∨
        tttCodes.contains code)) with
  | some code => code
  | none => fallback

/-- Insertion into a Python dict, as an insertion-ordered association
list: updating an existing key keeps its position, a new key is appended. -/
def dictInsert {α β : Type} [DecidableEq α] (store : List (α × β))
    (k : α) (v : β) : List (α × β) :=
  if store.any (fun e => e.1 = k) then
    store.map (fun e => if e.1 = k then (k, v) else e)
  else
    store ++ [(k, v)]

/-- The shared store write of `_save_state` / `_save_ttt_state` /
`_save_checkers_state`: insert, then when the store holds more than 500
entries pop `next(iter(store))` — the first-inserted key. -/
def saveState {α β : Type} [DecidableEq α] (store : List (α × β))
    (k : α) (v : β) : List (α × β) :=
  let store1 := dictInsert store k v
  if 500 < store1.length then store1.drop 1 else store1

/-- A board with one blue man on cell 41 (row 5, col 1) and one green man on
cell 34 (row 4, col 2): blue has the capture 41 → 27 over 34. -/
def capBoard : List String :=
  (List.range 64).map (fun i => if i = 41 then "b" else if i = 34 then "g" else "")

/-- A checkers state over `capBoard`, blue to move. -/
def capState : CkState := { newCheckersState "A" "B" with board := capBoard }

/-- `capState` with a forced-capture chain pinned to cell 41. -/
def forcedCapState : CkState := { capState with forced_from := some 41 }

/-- A board with a blue man on 41 and green men on 34 and 18: after the
capture 41 → 27 a further capture 27 → 9 over 18 is available. -/
def chainBoard : List String :=
  (List.range 64).map (fun i =>
    if i = 41 then "b" else if i = 34 ∨ i = 18 then "g" else "")

/-- A checkers state over `chainBoard`, blue to move. -/
def chainState : CkState := { newCheckersState "A" "B" with board := chainBoard }

/-- A board holding a single blue man on 41 and no green piece at all. -/
def blueOnlyBoard : List String :=
  (List.range 64).map (fun i => if i = 41 then "b" else "")

/-- A checkers state over `blueOnlyBoard`, blue to move. -/
def blueOnlyState : CkState :=
  { newCheckersState "A" "B" with board := blueOnlyBoard }

/-- A board with a blue man on 41 and a green man stuck on 56 (row 7,
col 0): green still has a piece but no move at all. -/
def stalemateBoard : List String :=
  (List.range 64).map (fun i =>
    if i = 41 then "b" else if i = 56 then "g" else "")

/-- A checkers state over `stalemateBoard`, blue to move. -/
def stalemateState : CkState :=
  { newCheckersState "A" "B" with board := stalemateBoard }

/-- A board with a blue man on cell 17 (row 2, col 1) and green men on
cells 10 (row 1, col 2), 12 (row 1, col 4) and 48: the capture 17 → 3
lands on blue's promotion row, and from cell 3 the jump over 12 to 21
would still be geometrically available. -/
def promoBoard : List String :=
  (List.range 64).map (fun i =>
    if i = 17 then "b" else if i = 10 ∨ i = 12 ∨ i = 48 then "g" else "")

/-- A checkers state over `promoBoard`, blue to move. -/
def promoState : CkState := { newCheckersState "A" "B" with board := promoBoard }

/-- A tic-tac-toe state with X on cells 0 and 1 (O on 3 and 4), X to move:
placing X on cell 2 completes the top row. -/
def xxWinState : TttState :=
  { newTttState "versus" "A" "B" with
    board := ["X", "X", "", "O", "O", "", "", "", ""] }

/-- A tic-tac-toe move sequence: X plays 1, 3, 5, 7, 4; O plays 0, 2, 6, 8.
The final X move on the centre completes the middle row and the middle
column at once. -/
def doubleWinMoves : List Int := [1, 0, 3, 2, 5, 6, 7, 8, 4]

/-- The state reached by playing `doubleWinMoves` from a fresh session. -/
def doubleWinState : TttState :=
  doubleWinMoves.foldl tttDoMove (newTttState "versus" "A" "B")

/-- A full session store: 500 entries keyed 0..499, in insertion order. -/
def store500 : List (Nat × Nat) := (List.range 500).map (fun i => (i, 0))

lemma getD_set_of_ne {α : Type} {l : List α} {i j : Nat} {a d : α} (h : i ≠ j) :
    (l.set i a).getD j d = l.getD j d := by
  rw [List.getD_eq_getElem?_getD, List.getD_eq_getElem?_getD, List.getElem?_set_ne h]

lemma getD_set_self_of_lt {α : Type} {l : List α} {i : Nat} {a d : α}
    (h : i < l.length) : (l.set i a).getD i d = a := by
  rw [List.getD_eq_getElem?_getD, List.getElem?_set_self h]
  rfl

/-- C7: a checkers click on a session bound to a room whose turn gate
(`_checkers_room_can_play`) denies the requesting role leaves the stored
game state unchanged in every field. -/
theorem checkers_click_gate_denied_state_unchanged (state : CkState)
    (rm : CkRoom) (role : Option String) (idx : Int)
    (h : checkersRoomCanPlay state (some rm) role = false) :
    checkersClickRoute state (some rm) role idx = state := by
  simp [checkersClickRoute, h]

/-- Witness for C7: with the second party not yet joined, blue's click on
cell 40 leaves the fresh state untouched. -/
theorem checkers_click_gate_denied_witness :
    checkersRoomCanPlay (newCheckersState "A" "B")
        (some ⟨"sid", false⟩) (some "b") = false ∧
      checkersClickRoute (newCheckersState "A" "B")
        (some ⟨"sid", false⟩) (some "b") 40 = newCheckersState "A" "B" :=
  ⟨by decide, checkers_click_gate_denied_state_unchanged _ _ _ _ (by decide)⟩

/-- C6 counterexample: when all 200 draws collide with stored codes,
`_new_room_code` returns the uuid fallback without checking it against the
stores, so the returned code can equal a code already in use. -/
theorem new_room_code_fallback_collision :
    newRoomCode ["AAAAAA"] [] [] (List.replicate 200 "AAAAAA") "AAAAAA" =
        "AAAAAA" ∧
      (["AAAAAA"] : List String).contains "AAAAAA" = true := by
  constructor <;> decide

/-- C6 (amended): whenever the bounded retry loop itself finds a code, the
returned code is absent from all three room stores; only the exhausted-loop
fallback is returned unchecked. -/
theorem new_room_code_loop_code_fresh
    (roomCodes ckCodes tttCodes draws : List String) (fallback c : String)
    (h : draws.find? (fun code =>
        ¬(roomCodes.contains code ∨ ckCodes.contains code ∨
          tttCodes.contains code)) = some c) :
    newRoomCode roomCodes ckCodes tttCodes draws fallback = c ∧
      roomCodes.contains c = false ∧ ckCodes.contains c = false ∧
      tttCodes.contains c = false := by
  have hp : ¬(roomCodes.contains c = true ∨ ckCodes.contains c = true ∨
      tttCodes.contains c = true) := by
    simpa using List.find?_some h
  push_neg at hp
  refine ⟨?_, ?_, ?_, ?_⟩
  · unfold newRoomCode
    rw [h]
  · simpa using hp.1
  · simpa using hp.2.1
  · simpa using hp.2.2

/-- Witness for C6's amended theorem: with `"ABC123"` stored, the second
draw `"XYZ789"` is returned and is in no store. -/
theorem new_room_code_loop_code_fresh_witness :
    newRoomCode ["ABC123"] [] [] ["ABC123", "XYZ789"] "FFFFFF" = "XYZ789" ∧
      (["ABC123"] : List String).contains "XYZ789" = false ∧
      ([] : List String).contains "XYZ789" = false ∧
      ([] : List String).contains "XYZ789" = false :=
  new_room_code_loop_code_fresh _ _ _ _ _ _ (by decide)

set_option maxRecDepth 10000 in
/-- C9 counterexample: in a full store, key 0 is re-saved (touched) most
recently, yet the next overflowing save evicts key 0 — the first-inserted
key — not the least-recently-touched key 1, which survives. -/
theorem save_state_evicts_first_inserted_not_lru :
    (saveState (saveState store500 0 1) 500 0).any (fun e => e.1 = 0) =
        false ∧
      (saveState (saveState store500 0 1) 500 0).any (fun e => e.1 = 1) =
        true ∧
      (saveState store500 0 1).length = 500 :=
  ⟨by decide, by decide, by decide⟩

/-- C9 (amended): a save into a store holding at most 500 entries leaves at
most 500 entries, and when the insertion overflows the ceiling exactly the
first-inserted entry is dropped. -/
theorem save_state_capacity {α β : Type} [DecidableEq α]
    (store : List (α × β)) (k : α) (v : β) (h : store.length ≤ 500) :
    (saveState store k v).length ≤ 500 ∧
      (500 < (dictInsert store k v).length →
        saveState store k v = (dictInsert store k v).drop 1) := by
  have hlen : (dictInsert store k v).length ≤ store.length + 1 := by
    unfold dictInsert
    split
    · simp
    · simp
  constructor
  · simp only [saveState]
    split
    · rw [List.length_drop]
      omega
    · omega
  · intro hgt
    simp only [saveState]
    rw [if_pos hgt]

/-- Witness for C9's amended theorem: saving key 1 into the one-entry store
`[(0, 0)]` keeps it within capacity. -/
theorem save_state_capacity_witness :
    (saveState [((0 : Nat), (0 : Nat))] 1 0).length ≤ 500 :=
  (save_state_capacity [((0 : Nat), (0 : Nat))] 1 0 (by decide)).1

lemma ckFinalize_scores (s : CkState) :
    s.score_blue ≤ (ckFinalizeTurnIfNeeded s).score_blue ∧
      s.score_green ≤ (ckFinalizeTurnIfNeeded s).score_green := by
  simp only [ckFinalizeTurnIfNeeded]
  split_ifs <;> simp

lemma ckApplyMove_scores (s : CkState) (a b : Nat) (cap : Bool) :
    s.score_blue ≤ (ckApplyMove s a b cap).score_blue ∧
      s.score_green ≤ (ckApplyMove s a b cap).score_green := by
  simp only [ckApplyMove]
  split_ifs
  · simp
  · exact ckFinalize_scores
      { s with board := (ckMovedBoard s.board a b).set (ckMidIdx a b) "" }
  · exact ckFinalize_scores { s with board := ckMovedBoard s.board a b }

lemma ckClickCell_scores (s : CkState) (idx : Int) :
    s.score_blue ≤ (ckClickCell s idx).score_blue ∧
      s.score_green ≤ (ckClickCell s idx).score_green := by
  simp only [ckClickCell]
  split
  · simp
  · split
    · split <;> simp
    · split
      · exact ckApplyMove_scores _ _ _ _
      · split <;> simp

lemma tttFinalize_scores (s : TttState) :
    s.score_x ≤ (tttFinalize s).score_x ∧
      s.score_o ≤ (tttFinalize s).score_o ∧
      s.score_draw ≤ (tttFinalize s).score_draw := by
  simp only [tttFinalize]
  split
  · split_ifs <;> simp
  · split_ifs <;> simp

lemma tttDoMove_scores (s : TttState) (pos : Int) :
    s.score_x ≤ (tttDoMove s pos).score_x ∧
      s.score_o ≤ (tttDoMove s pos).score_o ∧
      s.score_draw ≤ (tttDoMove s pos).score_draw := by
  simp only [tttDoMove]
  split
  · simp
  · split
    · simp
    · split
      · exact tttFinalize_scores
          { s with board := s.board.set pos.toNat s.current }
      · have h1 := tttFinalize_scores
          { s with board := s.board.set pos.toNat s.current }
        have h2 := tttFinalize_scores
          { tttFinalize { s with board := s.board.set pos.toNat s.current } with
            current :=
              if (tttFinalize
                  { s with board := s.board.set pos.toNat s.current }).current =
                  "X" then "O" else "X" }
        exact ⟨le_trans h1.1 h2.1, le_trans h1.2.1 h2.2.1,
          le_trans h1.2.2 h2.2.2⟩

/-- C10: across cell clicks/moves, next-round, overlay dismiss, and room
join, the cumulative score fields never decrease; the next-round routes
reset board, turn and finished flags while leaving every score field
unchanged. -/
theorem scores_monotone_next_round_preserves_scores :
    (∀ (s : CkState) (idx : Int),
        s.score_blue ≤ (ckClickCell s idx).score_blue ∧
        s.score_green ≤ (ckClickCell s idx).score_green) ∧
    (∀ (s : CkState) (rb : Bool) (role : Option String),
        (checkersNextRoute s rb role).score_blue = s.score_blue ∧
        (checkersNextRoute s rb role).score_green = s.score_green ∧
        (¬(rb = true ∧ role ≠ some "b") →
          (checkersNextRoute s rb role).board = newCheckersBoard ∧
          (checkersNextRoute s rb role).turn = "b" ∧
          (checkersNextRoute s rb role).finished = false ∧
          (checkersNextRoute s rb role).forced_from = none)) ∧
    (∀ s : CkState,
        (checkersOverlayDismissRoute s).score_blue = s.score_blue ∧
        (checkersOverlayDismissRoute s).score_green = s.score_green) ∧
    (∀ (s : CkState) (n : String),
        (checkersRoomJoinStateUpdate s n).score_blue = s.score_blue ∧
        (checkersRoomJoinStateUpdate s n).score_green = s.score_green) ∧
    (∀ (s : TttState) (pos : Int),
        s.score_x ≤ (tttDoMove s pos).score_x ∧
        s.score_o ≤ (tttDoMove s pos).score_o ∧
        s.score_draw ≤ (tttDoMove s pos).score_draw) ∧
    (∀ (s : TttState) (rb : Bool) (role : Option String),
        (tttNextRoute s rb role).score_x = s.score_x ∧
        (tttNextRoute s rb role).score_o = s.score_o ∧
        (tttNextRoute s rb role).score_draw = s.score_draw ∧
        (¬(rb = true ∧ role ≠ some "X") →
          (tttNextRoute s rb role).board = List.replicate 9 "" ∧
          (tttNextRoute s rb role).current = "X" ∧
          (tttNextRoute s rb role).finished = false)) ∧
    (∀ s : TttState,
        (tttOverlayDismissRoute s).score_x = s.score_x ∧
        (tttOverlayDismissRoute s).score_o = s.score_o ∧
        (tttOverlayDismissRoute s).score_draw = s.score_draw) ∧
    (∀ (s : TttState) (n : String),
        (tttRoomJoinStateUpdate s n).score_x = s.score_x ∧
        (tttRoomJoinStateUpdate s n).score_o = s.score_o ∧
        (tttRoomJoinStateUpdate s n).score_draw = s.score_draw) := by
  refine ⟨fun s idx => ckClickCell_scores s idx,
    fun s rb role => ?_, fun s => ?_, fun s n => ?_,
    fun s pos => tttDoMove_scores s pos,
    fun s rb role => ?_, fun s => ?_, fun s n => ?_⟩
  · simp only [checkersNextRoute]
    split_ifs with hgate
    · exact ⟨rfl, rfl, fun hc => absurd hgate hc⟩
    · exact ⟨rfl, rfl, fun _ => ⟨rfl, rfl, rfl, rfl⟩⟩
  · exact ⟨rfl, rfl⟩
  · exact ⟨rfl, rfl⟩
  · simp only [tttNextRoute]
    split_ifs with hgate
    · exact ⟨rfl, rfl, rfl, fun hc => absurd hgate hc⟩
    · exact ⟨rfl, rfl, rfl, fun _ => ⟨rfl, rfl, rfl⟩⟩
  · exact ⟨rfl, rfl, rfl⟩
  · exact ⟨rfl, rfl, rfl⟩

/-- Witness for C10: a no-room next-round call on a fresh checkers session
keeps both scores and resets the turn to blue. -/
theorem scores_monotone_witness :
    (checkersNextRoute (newCheckersState "A" "B") false none).score_blue =
        (newCheckersState "A" "B").score_blue ∧
      (checkersNextRoute (newCheckersState "A" "B") false none).turn = "b" := by
  have h := scores_monotone_next_round_preserves_scores.2.1
    (newCheckersState "A" "B") false none
  exact ⟨h.1, (h.2.2 (by decide)).2.1⟩

lemma mem_ckCaptureMap {s : CkState} {e : Nat × List (Nat × Bool)} :
    e ∈ ckCaptureMap s ↔
      ∃ i ∈ ckCandidates s, ckCaptures s.board i ≠ [] ∧
        e = (i, ckCaptures s.board i) := by
  unfold ckCaptureMap
  rw [List.mem_filterMap]
  constructor
  · rintro ⟨i, hi, hf⟩
    dsimp only at hf
    by_cases hc : (ckCaptures s.board i).isEmpty
    · simp [hc] at hf
    · have hc' : (ckCaptures s.board i).isEmpty = false := by
        rwa [Bool.not_eq_true] at hc
      rw [hc', if_neg (by simp)] at hf
      refine ⟨i, hi, ?_, (Option.some.injEq _ _ ▸ hf).symm⟩
      intro h0
      rw [h0] at hc'
      simp at hc'
  · rintro ⟨i, hi, hne, rfl⟩
    refine ⟨i, hi, ?_⟩
    simp [List.isEmpty_iff, hne]

lemma ckCaptures_all_true {board : List String} {i : Nat}
    {m : Nat × Bool} (hm : m ∈ ckCaptures board i) : m.2 = true := by
  unfold ckCaptures at hm
  simpa using (List.mem_filter.mp hm).2

/-- C1: whenever any candidate piece of the side to move has at least one
capture available, `_ck_legal_moves` returns the capture map, whose every
(target, isCapture) pair has isCapture true — no simple step appears. -/
theorem legal_moves_captures_only (s : CkState)
    (h : ∃ i ∈ ckCandidates s, ckCaptures s.board i ≠ []) :
    ∀ e ∈ ckLegalMoves s, ∀ m ∈ e.2, m.2 = true := by
  obtain ⟨i, hi, hne⟩ := h
  have hmem : (i, ckCaptures s.board i) ∈ ckCaptureMap s :=
    mem_ckCaptureMap.mpr ⟨i, hi, hne, rfl⟩
  have hmap : ¬(ckCaptureMap s).isEmpty = true := by
    rw [List.isEmpty_iff]
    intro h0
    rw [h0] at hmem
    exact absurd hmem (List.not_mem_nil _)
  intro e he m hm
  rw [ckLegalMoves, if_pos hmap] at he
  obtain ⟨j, _, _, rfl⟩ := mem_ckCaptureMap.mp he
  exact ckCaptures_all_true hm

/-- Witness for C1: on `capState`, blue's man on 41 has the capture over 34,
and the legal-move map lists only capture pairs. -/
theorem legal_moves_captures_only_witness :
    (ckLegalMoves capState).all (fun e => e.2.all (fun m => m.2)) = true := by
  rw [List.all_eq_true]
  intro e he
  rw [List.all_eq_true]
  intro m hm
  exact legal_moves_captures_only capState ⟨41, by decide, by decide⟩ e he m hm

lemma ckCandidates_forced {s : CkState} {f : Nat} (h : s.forced_from = some f) :
    ckCandidates s = [f] := by
  unfold ckCandidates
  rw [h]

lemma ckCaptureMap_forced {s : CkState} {f : Nat} (h : s.forced_from = some f) :
    ckCaptureMap s =
      if (ckCaptures s.board f).isEmpty then []
      else [(f, ckCaptures s.board f)] := by
  unfold ckCaptureMap
  rw [ckCandidates_forced h]
  by_cases hc : ckCaptures s.board f = [] <;>
    simp [List.filterMap_cons, List.isEmpty_iff, hc]

/-- C3: with `forced_from` set, `_ck_legal_moves` only offers moves for that
cell and is empty exactly when that cell has no capture; after a
non-promoting capture via `_ck_apply_move`, a further capture from the
landing cell sets `forced_from` to the landing cell with `turn` unchanged,
otherwise end-of-turn handling runs. -/
theorem forced_chain_behavior :
    (∀ (s : CkState) (f : Nat), s.forced_from = some f →
      (∀ e ∈ ckLegalMoves s, e.1 = f) ∧
      (ckLegalMoves s = [] ↔ ckCaptures s.board f = [])) ∧
    (∀ (s : CkState) (fromIdx toIdx : Nat),
      ckPromotes (s.board.getD fromIdx "") toIdx = false →
      (ckCaptures ((ckMovedBoard s.board fromIdx toIdx).set
          (ckMidIdx fromIdx toIdx) "") toIdx ≠ [] →
        (ckApplyMove s fromIdx toIdx true).forced_from = some toIdx ∧
        (ckApplyMove s fromIdx toIdx true).turn = s.turn) ∧
      (ckCaptures ((ckMovedBoard s.board fromIdx toIdx).set
          (ckMidIdx fromIdx toIdx) "") toIdx = [] →
        ckApplyMove s fromIdx toIdx true =
          ckFinalizeTurnIfNeeded
            { s with board :=
                ((ckMovedBoard s.board fromIdx toIdx).set
                  (ckMidIdx fromIdx toIdx) "") })) := by
  constructor
  · intro s f hf
    by_cases hc : ckCaptures s.board f = []
    · have hmap : ckCaptureMap s = [] := by
        rw [ckCaptureMap_forced hf, if_pos (by simp [List.isEmpty_iff, hc])]
      have hlegal : ckLegalMoves s = [] := by
        rw [ckLegalMoves, if_neg (by simp [hmap]), hf]
      refine ⟨?_, by simp [hlegal, hc]⟩
      intro e he
      rw [hlegal] at he
      exact absurd he (List.not_mem_nil _)
    · have hmap : ckCaptureMap s = [(f, ckCaptures s.board f)] := by
        rw [ckCaptureMap_forced hf, if_neg (by simp [List.isEmpty_iff, hc])]
      have hlegal : ckLegalMoves s = [(f, ckCaptures s.board f)] := by
        rw [ckLegalMoves, if_pos (by simp [hmap]), hmap]
      refine ⟨?_, by simp [hlegal, hc]⟩
      intro e he
      rw [hlegal, List.mem_singleton] at he
      rw [he]
  · intro s fromIdx toIdx hpro
    rw [List.getD_eq_getElem?_getD] at hpro
    constructor
    · intro hne
      constructor <;>
        simp [ckApplyMove, hpro, List.isEmpty_iff, hne]
    · intro heq
      simp [ckApplyMove, hpro, List.isEmpty_iff, heq]

/-- Witness for C3: the pinned state offers exactly cell 41; the capture
41 → 27 on `chainState` continues the chain at 27, while on `capState` it
ends the ply through end-of-turn handling. -/
theorem forced_chain_behavior_witness :
    (ckLegalMoves forcedCapState = [] ↔
      ckCaptures forcedCapState.board 41 = []) ∧
    ((ckApplyMove chainState 41 27 true).forced_from = some 27 ∧
      (ckApplyMove chainState 41 27 true).turn = chainState.turn) ∧
    ckApplyMove capState 41 27 true =
      ckFinalizeTurnIfNeeded
        { capState with board :=
            ((ckMovedBoard capState.board 41 27).set (ckMidIdx 41 27) "") } :=
  ⟨(forced_chain_behavior.1 forcedCapState 41 rfl).2,
    (forced_chain_behavior.2 chainState 41 27 (by decide)).1 (by decide),
    (forced_chain_behavior.2 capState 41 27 (by decide)).2 (by decide)⟩

/-- C2: a capture by `_ck_apply_move` that lands a man on the opponent's
back row (a blue man on row 0 after a jump from row 2, a green man on row 7
after a jump from row 5) replaces the man by its king on the landing cell
and ends the ply through end-of-turn handling — the chain-continuation
branch that would set `forced_from` is skipped even if a further capture is
geometrically available from the landing cell. -/
theorem promotion_capture_ends_ply (s : CkState) (fromIdx toIdx : Nat)
    (hlen : toIdx < s.board.length)
    (h : (s.board.getD fromIdx "" = "b" ∧ toIdx / 8 = 0 ∧ fromIdx / 8 = 2) ∨
         (s.board.getD fromIdx "" = "g" ∧ toIdx / 8 = 7 ∧ fromIdx / 8 = 5)) :
    ckApplyMove s fromIdx toIdx true =
      ckFinalizeTurnIfNeeded
        { s with board :=
            ((ckMovedBoard s.board fromIdx toIdx).set
              (ckMidIdx fromIdx toIdx) "") } ∧
    ((ckMovedBoard s.board fromIdx toIdx).set
        (ckMidIdx fromIdx toIdx) "").getD toIdx "" =
      (if s.board.getD fromIdx "" = "b" then "B" else "G") := by
  have hpro : ckPromotes (s.board.getD fromIdx "") toIdx = true := by
    rcases h with ⟨hp, ht, _⟩ | ⟨hp, ht, _⟩ <;> rw [hp] <;>
      simp [ckPromotes, ht]
  have hmid : ckMidIdx fromIdx toIdx ≠ toIdx := by
    rcases h with ⟨_, ht, hf⟩ | ⟨_, ht, hf⟩ <;> (unfold ckMidIdx; omega)
  constructor
  · rw [List.getD_eq_getElem?_getD] at hpro
    simp [ckApplyMove, hpro]
  · rw [getD_set_of_ne hmid]
    rcases h with ⟨hp, ht, _⟩ | ⟨hp, ht, _⟩
    · rw [if_pos hp]
      simp only [ckMovedBoard]
      rw [hp, ht, if_pos ⟨rfl, rfl⟩]
      exact getD_set_self_of_lt (by simpa using hlen)
    · rw [if_neg (by rw [hp]; decide)]
      simp only [ckMovedBoard]
      rw [hp, ht, if_neg (by decide), if_pos ⟨rfl, rfl⟩]
      exact getD_set_self_of_lt (by simpa using hlen)

/-- Witness for C2: the capture 17 → 3 in `promoState` promotes the blue
man, and although a further capture from cell 3 over 12 is geometrically
available, the move ends the ply through end-of-turn handling. -/
theorem promotion_capture_ends_ply_witness :
    ckApplyMove promoState 17 3 true =
      ckFinalizeTurnIfNeeded
        { promoState with board :=
            ((ckMovedBoard promoState.board 17 3).set (ckMidIdx 17 3) "") } ∧
    ((ckMovedBoard promoState.board 17 3).set (ckMidIdx 17 3) "").getD 3 "" =
      (if promoState.board.getD 17 "" = "b" then "B" else "G") ∧
    ckCaptures ((ckMovedBoard promoState.board 17 3).set (ckMidIdx 17 3) "")
        3 ≠ [] :=
  have h := promotion_capture_ends_ply promoState 17 3 (by decide)
    (Or.inl ⟨by decide, by decide, by decide⟩)
  ⟨h.1, h.2, by decide⟩

/-- C4: end-of-turn handling in `_ck_finalize_turn_if_needed`: if the
opponent has zero pieces the acting side wins at once; otherwise, after the
turn flips, zero legal moves for the new turn-holder finishes the game with
the side that just moved as winner; neither finishing case is a draw; and
otherwise the game continues with a status message naming the new
turn-holder. -/
theorem finalize_turn_outcomes (s : CkState)
    (hturn : s.turn = "b" ∨ s.turn = "g") :
    ((∀ p ∈ s.board, ckPieceOwner p ≠ (if s.turn = "b" then "g" else "b")) →
      (ckFinalizeTurnIfNeeded s).finished = true ∧
      (ckFinalizeTurnIfNeeded s).winner = some s.turn ∧
      (ckFinalizeTurnIfNeeded s).winner ≠ some "draw") ∧
    ((∃ p ∈ s.board, ckPieceOwner p = (if s.turn = "b" then "g" else "b")) →
      ckLegalMoves
        { s with
          turn := (if s.turn = "b" then "g" else "b")
          selected := none
          forced_from := none } = [] →
      (ckFinalizeTurnIfNeeded s).finished = true ∧
      (ckFinalizeTurnIfNeeded s).winner = some s.turn ∧
      (ckFinalizeTurnIfNeeded s).winner ≠ some "draw") ∧
    ((∃ p ∈ s.board, ckPieceOwner p = (if s.turn = "b" then "g" else "b")) →
      ckLegalMoves
        { s with
          turn := (if s.turn = "b" then "g" else "b")
          selected := none
          forced_from := none } ≠ [] →
      (ckFinalizeTurnIfNeeded s).finished = s.finished ∧
      (ckFinalizeTurnIfNeeded s).turn = (if s.turn = "b" then "g" else "b") ∧
      (ckFinalizeTurnIfNeeded s).message =
        "Vez de " ++ (if s.turn = "b" then s.green_name else s.blue_name)) := by
  refine ⟨fun hno => ?_, fun hex hlm => ?_, fun hex hlm => ?_⟩
  · have hcond : (s.board.filter (fun p =>
        ckPieceOwner p = (if s.turn = "b" then "g" else "b"))).isEmpty = true := by
      rw [List.isEmpty_iff, List.filter_eq_nil_iff]
      intro p hp
      simpa using hno p hp
    unfold ckFinalizeTurnIfNeeded
    dsimp only
    rw [if_pos hcond]
    refine ⟨rfl, rfl, ?_⟩
    rcases hturn with ht | ht <;> simp [ht]
  · have hcond : ¬(s.board.filter (fun p =>
        ckPieceOwner p = (if s.turn = "b" then "g" else "b"))).isEmpty = true := by
      rw [List.isEmpty_iff, List.filter_eq_nil_iff]
      intro hall
      obtain ⟨p, hp, hp2⟩ := hex
      exact absurd (by simpa using hp2) (by simpa using hall p hp)
    have hlm2 : (ckLegalMoves
        { s with
          turn := (if s.turn = "b" then "g" else "b")
          selected := none
          forced_from := none }).isEmpty = true := by
      rw [List.isEmpty_iff]
      exact hlm
    unfold ckFinalizeTurnIfNeeded
    dsimp only
    rw [if_neg hcond, if_pos hlm2]
    refine ⟨rfl, ?_, ?_⟩ <;> rcases hturn with ht | ht <;> simp [ht]
  · have hcond : ¬(s.board.filter (fun p =>
        ckPieceOwner p = (if s.turn = "b" then "g" else "b"))).isEmpty = true := by
      rw [List.isEmpty_iff, List.filter_eq_nil_iff]
      intro hall
      obtain ⟨p, hp, hp2⟩ := hex
      exact absurd (by simpa using hp2) (by simpa using hall p hp)
    have hlm2 : ¬(ckLegalMoves
        { s with
          turn := (if s.turn = "b" then "g" else "b")
          selected := none
          forced_from := none }).isEmpty = true := by
      rw [List.isEmpty_iff]
      exact hlm
    unfold ckFinalizeTurnIfNeeded
    dsimp only
    rw [if_neg hcond, if_neg hlm2]
    refine ⟨rfl, rfl, ?_⟩
    rcases hturn with ht | ht <;> simp [ckCurrentName, ht]

/-- Witness for C4: with no green piece left, blue wins at once; with green
stalemated on cell 56, blue wins after the flip; on the fresh board the
game continues and the message names green. -/
theorem finalize_turn_outcomes_witness :
    ((ckFinalizeTurnIfNeeded blueOnlyState).finished = true ∧
      (ckFinalizeTurnIfNeeded blueOnlyState).winner = some "b") ∧
    ((ckFinalizeTurnIfNeeded stalemateState).finished = true ∧
      (ckFinalizeTurnIfNeeded stalemateState).winner = some "b") ∧
    (ckFinalizeTurnIfNeeded (newCheckersState "A" "B")).message =
      "Vez de " ++ "B" :=
  have h1 := (finalize_turn_outcomes blueOnlyState (Or.inl rfl)).1
    (by decide)
  have h2 := (finalize_turn_outcomes stalemateState (Or.inl rfl)).2.1
    (by decide) (by decide)
  have h3 := (finalize_turn_outcomes (newCheckersState "A" "B")
    (Or.inl rfl)).2.2 (by decide) (by decide)
  ⟨⟨h1.1, by rw [h1.2.1]; rfl⟩, ⟨h2.1, by rw [h2.2.1]; rfl⟩,
    by rw [h3.2.2]; rfl⟩

lemma findSome_if_isSome {α β : Type} (l : List α) (p : α → Bool)
    (g : α → β) :
    (l.findSome? (fun a => if p a then some (g a) else none)).isSome =
      l.any p := by
  induction l with
  | nil => rfl
  | cons a t ih => by_cases h : p a <;> simp [List.findSome?_cons, h, ih]

lemma tttCheckWinner_isSome_eq_any (board : List String) :
    (tttCheckWinner board).isSome =
      tttWinLines.any (fun l => tttLineWin board l) :=
  findSome_if_isSome tttWinLines (fun l => tttLineWin board l)
    (fun l => board.getD l.1 "")

lemma tttFinalize_win {s : TttState} {w : String}
    (h : tttCheckWinner s.board = some w) :
    tttFinalize s =
      { s with
        finished := true
        winner := some w
        winner_name := tttNameForSymbol s w
        show_overlay := true
        score_x := if w = "X" then s.score_x + 1 else s.score_x
        score_o := if w = "X" then s.score_o else s.score_o + 1
        message := "Vitória de " ++ tttNameForSymbol s w ++ " (" ++ w ++ ")" } := by
  unfold tttFinalize
  rw [h]

lemma tttFinalize_draw {s : TttState}
    (h : tttCheckWinner s.board = none)
    (hall : s.board.all (fun cell => cell ≠ "") = true) :
    tttFinalize s =
      { s with
        finished := true
        winner := some "draw"
        winner_name := "Empate"
        score_draw := s.score_draw + 1
        show_overlay := true
        message := "Empate!" } := by
  unfold tttFinalize
  rw [h]
  exact if_pos hall

lemma tttFinalize_continue {s : TttState}
    (h : tttCheckWinner s.board = none)
    (hall : s.board.all (fun cell => cell ≠ "") = false) :
    tttFinalize s =
      { s with
        finished := false
        winner := none
        winner_name := ""
        show_overlay := false
        message := "Vez de " ++ tttNameForSymbol s s.current ++
          " (" ++ s.current ++ ")" } := by
  unfold tttFinalize
  rw [h]
  exact if_neg (by rw [hall]; decide)

lemma tttFinalize_continue_proj (t : TttState)
    (h : tttCheckWinner t.board = none)
    (hall : t.board.all (fun cell => cell ≠ "") = false) :
    (tttFinalize t).finished = false ∧ (tttFinalize t).winner = none ∧
      (tttFinalize t).current = t.current := by
  rw [tttFinalize_continue h hall]
  exact ⟨rfl, rfl, rfl⟩

lemma tttFinalize_board (t : TttState) : (tttFinalize t).board = t.board := by
  unfold tttFinalize
  split
  · rfl
  · split_ifs <;> rfl

/-- C5: `_ttt_do_move` is a no-op when the game is finished, the index is
out of range, or the cell is occupied; otherwise it places the current
symbol at `pos` and then finishes with the completed line's symbol as
winner when `_ttt_check_winner` finds one (which happens exactly when one
of the 8 lines holds three equal non-empty symbols), finishes as a draw
when the board is full with no line, and otherwise flips the current
symbol with `finished` staying false. -/
theorem ttt_do_move_spec (s : TttState) (pos : Int) :
    (s.finished = true → tttDoMove s pos = s) ∧
    (pos < 0 ∨ 9 ≤ pos → tttDoMove s pos = s) ∧
    (s.board.getD pos.toNat "" ≠ "" → tttDoMove s pos = s) ∧
    (s.finished = false → ¬(pos < 0 ∨ 9 ≤ pos) →
      s.board.getD pos.toNat "" = "" →
      (tttDoMove s pos).board = s.board.set pos.toNat s.current ∧
      ((tttCheckWinner (s.board.set pos.toNat s.current)).isSome =
        tttWinLines.any (fun l =>
          tttLineWin (s.board.set pos.toNat s.current) l)) ∧
      (∀ w, tttCheckWinner (s.board.set pos.toNat s.current) = some w →
        (tttDoMove s pos).finished = true ∧
        (tttDoMove s pos).winner = some w) ∧
      (tttCheckWinner (s.board.set pos.toNat s.current) = none →
        (s.board.set pos.toNat s.current).all (fun c => c ≠ "") = true →
        (tttDoMove s pos).finished = true ∧
        (tttDoMove s pos).winner = some "draw") ∧
      (tttCheckWinner (s.board.set pos.toNat s.current) = none →
        (s.board.set pos.toNat s.current).all (fun c => c ≠ "") = false →
        (tttDoMove s pos).finished = false ∧
        (tttDoMove s pos).winner = none ∧
        (tttDoMove s pos).current =
          (if s.current = "X" then "O" else "X"))) := by
  refine ⟨fun hf => ?_, fun hr => ?_, fun ho => ?_, fun hf hr he => ?_⟩
  · unfold tttDoMove
    rw [if_pos hf]
  · unfold tttDoMove
    by_cases hf : s.finished = true
    · rw [if_pos hf]
    · rw [if_neg hf, if_pos (hr.imp (fun h => h) (fun h => Or.inl h))]
  · unfold tttDoMove
    by_cases hf : s.finished = true
    · rw [if_pos hf]
    · rw [if_neg hf, if_pos (Or.inr (Or.inr ho))]
  · have hguard : ¬(pos < 0 ∨ 9 ≤ pos ∨ s.board.getD pos.toNat "" ≠ "") := by
      refine not_or.mpr ⟨(not_or.mp hr).1, not_or.mpr ⟨(not_or.mp hr).2, ?_⟩⟩
      rw [Ne]
      exact not_not_intro he
    have hdo : tttDoMove s pos =
        (if (tttFinalize
            { s with board := s.board.set pos.toNat s.current }).finished =
            true then
          tttFinalize { s with board := s.board.set pos.toNat s.current }
        else
          tttFinalize
            { tttFinalize { s with board := s.board.set pos.toNat s.current }
              with
              current :=
                if (tttFinalize
                    { s with
                      board := s.board.set pos.toNat s.current }).current =
                    "X" then "O" else "X" }) := by
      unfold tttDoMove
      rw [if_neg (by rw [hf]; decide), if_neg hguard]
    refine ⟨?_, tttCheckWinner_isSome_eq_any _, fun w hcw => ?_,
      fun hcw hall => ?_, fun hcw hall => ?_⟩
    · rw [hdo]
      split <;> simp [tttFinalize_board]
    · rw [hdo, tttFinalize_win
        (s := { s with board := s.board.set pos.toNat s.current }) hcw]
      exact ⟨rfl, rfl⟩
    · rw [hdo, tttFinalize_draw
        (s := { s with board := s.board.set pos.toNat s.current }) hcw hall]
      exact ⟨rfl, rfl⟩
    · have h1 := tttFinalize_continue_proj
        { s with board := s.board.set pos.toNat s.current } hcw hall
      rw [hdo, if_neg (by rw [h1.1]; decide)]
      have hb2 : ∀ t : TttState,
          t.board = s.board.set pos.toNat s.current →
          (tttFinalize t).finished = false ∧ (tttFinalize t).winner = none ∧
          (tttFinalize t).current = t.current := by
        intro t ht
        exact tttFinalize_continue_proj t (by rw [ht]; exact hcw)
          (by rw [ht]; exact hall)
      refine ⟨(hb2 _ (by simp [tttFinalize_board])).1,
        (hb2 _ (by simp [tttFinalize_board])).2.1, ?_⟩
      refine Eq.trans ((hb2 _ (by simp [tttFinalize_board])).2.2) ?_
      rw [h1.2.2]

/-- Witness for C5: the first move on cell 4 of a fresh board places X and
flips the turn to O; completing the top row from `xxWinState` finishes the
game with winner X. -/
theorem ttt_do_move_spec_witness :
    (tttDoMove (newTttState "versus" "A" "B") 4).board =
      (newTttState "versus" "A" "B").board.set (4 : Int).toNat
        (newTttState "versus" "A" "B").current ∧
    (tttDoMove (newTttState "versus" "A" "B") 4).current =
      (if (newTttState "versus" "A" "B").current = "X" then "O" else "X") ∧
    (tttDoMove xxWinState 2).finished = true ∧
    (tttDoMove xxWinState 2).winner = some "X" :=
  have h1 := (ttt_do_move_spec (newTttState "versus" "A" "B") 4).2.2.2
    (by decide) (by decide) (by decide)
  have h2 := (ttt_do_move_spec xxWinState 2).2.2.2
    (by decide) (by decide) (by decide)
  ⟨h1.1, (h1.2.2.2.2 (by decide) (by decide)).2.2,
    (h2.2.2.1 "X" (by decide)).1, (h2.2.2.1 "X" (by decide)).2⟩

lemma tttCheckWinner_some {board : List String} {w : String}
    (h : tttCheckWinner board = some w) :
    ∃ l ∈ tttWinLines, tttLineWin board l = true ∧ w = board.getD l.1 "" := by
  unfold tttCheckWinner at h
  obtain ⟨l, hl, hfl⟩ := List.exists_of_findSome?_eq_some h
  by_cases hwl : tttLineWin board l
  · rw [if_pos hwl] at hfl
    exact ⟨l, hl, hwl, (Option.some.injEq _ _ ▸ hfl).symm⟩
  · rw [if_neg hwl] at hfl
    cases hfl

lemma tttCheckWinner_of_none {board : List String}
    (h : tttCheckWinner board = none) :
    ∀ l ∈ tttWinLines, tttLineWin board l = false := by
  intro l hl
  unfold tttCheckWinner at h
  rw [List.findSome?_eq_none_iff] at h
  have hcl := h l hl
  by_cases hwl : tttLineWin board l
  · rw [if_pos hwl] at hcl
    cases hcl
  · rwa [Bool.not_eq_true] at hwl

lemma tttLineWin_set_of_not_mem {board : List String} {p : Nat} {v : String}
    {l : Nat × Nat × Nat} (h1 : p ≠ l.1) (h2 : p ≠ l.2.1) (h3 : p ≠ l.2.2) :
    tttLineWin (board.set p v) l = tttLineWin board l := by
  unfold tttLineWin
  rw [getD_set_of_ne h1, getD_set_of_ne h2, getD_set_of_ne h3]

/-- Case analysis on the outcome of one `_ttt_do_move` call, stated through
the projections a reachability invariant needs. -/
lemma tttDoMove_proj (s : TttState) (pos : Int) :
    tttDoMove s pos = s ∨
    (s.finished = false ∧
      (tttDoMove s pos).board = s.board.set pos.toNat s.current ∧
      ((∃ w, tttCheckWinner (s.board.set pos.toNat s.current) = some w ∧
          (tttDoMove s pos).finished = true ∧
          (tttDoMove s pos).winner = some w) ∨
       ((tttDoMove s pos).finished = true ∧
          (tttDoMove s pos).winner = some "draw") ∨
       (tttCheckWinner (s.board.set pos.toNat s.current) = none ∧
          (tttDoMove s pos).finished = false ∧
          (tttDoMove s pos).winner = none))) := by
  by_cases hf : s.finished = true
  · exact Or.inl (by unfold tttDoMove; rw [if_pos hf])
  by_cases hguard : pos < 0 ∨ 9 ≤ pos ∨ s.board.getD pos.toNat "" ≠ ""
  · exact Or.inl (by unfold tttDoMove; rw [if_neg hf, if_pos hguard])
  have hfin : s.finished = false := by rwa [Bool.not_eq_true] at hf
  have hdo : tttDoMove s pos =
      (if (tttFinalize
          { s with board := s.board.set pos.toNat s.current }).finished =
          true then
        tttFinalize { s with board := s.board.set pos.toNat s.current }
      else
        tttFinalize
          { tttFinalize { s with board := s.board.set pos.toNat s.current }
            with
            current :=
              if (tttFinalize
                  { s with
                    board := s.board.set pos.toNat s.current }).current =
                  "X" then "O" else "X" }) := by
    unfold tttDoMove
    rw [if_neg hf, if_neg hguard]
  refine Or.inr ⟨hfin, ?_, ?_⟩
  · rw [hdo]
    split <;> simp [tttFinalize_board]
  · rcases hcw : tttCheckWinner (s.board.set pos.toNat s.current) with _ | w
    · by_cases hall : (s.board.set pos.toNat s.current).all
          (fun cell => cell ≠ "") = true
      · refine Or.inr (Or.inl ?_)
        rw [hdo, tttFinalize_draw
          (s := { s with board := s.board.set pos.toNat s.current }) hcw hall]
        exact ⟨rfl, rfl⟩
      · refine Or.inr (Or.inr ?_)
        have hall2 : (s.board.set pos.toNat s.current).all
            (fun cell => cell ≠ "") = false := by
          rwa [Bool.not_eq_true] at hall
        have h1 := tttFinalize_continue_proj
          { s with board := s.board.set pos.toNat s.current } hcw hall2
        rw [hdo, if_neg (by rw [h1.1]; decide)]
        have hb2 : ∀ t : TttState,
            t.board = s.board.set pos.toNat s.current →
            (tttFinalize t).finished = false ∧
            (tttFinalize t).winner = none := by
          intro t ht
          have h3 := tttFinalize_continue_proj t (by rw [ht]; exact hcw)
            (by rw [ht]; exact hall2)
          exact ⟨h3.1, h3.2.1⟩
        exact ⟨rfl, (hb2 _ (by simp [tttFinalize_board])).1,
          (hb2 _ (by simp [tttFinalize_board])).2⟩
    · refine Or.inl ⟨w, rfl, ?_⟩
      rw [hdo, tttFinalize_win
        (s := { s with board := s.board.set pos.toNat s.current }) hcw]
      exact ⟨rfl, rfl⟩

/-- Invariant of tic-tac-toe states reachable through `_ttt_do_move`: an
unfinished game has no completed line, and a finished non-draw game has
every completed line holding the winner's symbol. -/
def TttInv (s : TttState) : Prop :=
  (s.finished = false → ∀ l ∈ tttWinLines, tttLineWin s.board l = false) ∧
  (s.finished = true → ∀ w, s.winner = some w → w ≠ "draw" →
    ∀ l ∈ tttWinLines, tttLineWin s.board l = true →
      s.board.getD l.1 "" = w)

lemma tttInv_init (mode p1 p2 : String) : TttInv (newTttState mode p1 p2) := by
  constructor
  · intro _ l hl
    fin_cases hl <;> rfl
  · intro hfin
    exact absurd hfin (by exact fun h => Bool.noConfusion h)

lemma tttInv_step (s : TttState) (pos : Int) (h : TttInv s) :
    TttInv (tttDoMove s pos) := by
  rcases tttDoMove_proj s pos with heq | ⟨hfin, hboard, hcase⟩
  · rw [heq]
    exact h
  · have hnoline := h.1 hfin
    have hkey : ∀ l ∈ tttWinLines,
        tttLineWin (s.board.set pos.toNat s.current) l = true →
        (s.board.set pos.toNat s.current).getD l.1 "" = s.current := by
      intro l hl hwin
      by_cases hmem : pos.toNat = l.1 ∨ pos.toNat = l.2.1 ∨
          pos.toNat = l.2.2
      · by_cases hlen : pos.toNat < s.board.length
        · have hbp : (s.board.set pos.toNat s.current).getD pos.toNat "" =
              s.current := getD_set_self_of_lt hlen
          unfold tttLineWin at hwin
          simp only [decide_eq_true_eq] at hwin
          obtain ⟨hne, h12, h23⟩ := hwin
          rcases hmem with hm | hm | hm
          · rw [← hm, hbp]
          · rw [h12, ← hm, hbp]
          · rw [h12, h23, ← hm, hbp]
        · have hb2 : s.board.set pos.toNat s.current = s.board :=
            List.set_eq_of_length_le (le_of_not_lt hlen)
          rw [hb2, hnoline l hl] at hwin
          cases hwin
      · push_neg at hmem
        rw [tttLineWin_set_of_not_mem hmem.1 hmem.2.1 hmem.2.2,
          hnoline l hl] at hwin
        cases hwin
    rcases hcase with ⟨w, hcw, hft, hwin⟩ | ⟨hft, hwin⟩ | ⟨hcw, hft, hwin⟩
    · have hwcur : w = s.current := by
        obtain ⟨l0, hl0, hwl0, hw0⟩ := tttCheckWinner_some hcw
        rw [hw0]
        exact hkey l0 hl0 hwl0
      constructor
      · intro hc
        rw [hft] at hc
        cases hc
      · intro _ w2 hw2 _ l hl hlw
        rw [hwin] at hw2
        injection hw2 with hw2
        rw [hboard] at hlw ⊢
        rw [hkey l hl hlw, ← hw2, hwcur]
    · constructor
      · intro hc
        rw [hft] at hc
        cases hc
      · intro _ w2 hw2 hwd l hl hlw
        rw [hwin] at hw2
        injection hw2 with hw2
        exact absurd hw2.symm hwd
    · constructor
      · intro _ l hl
        rw [hboard]
        exact tttCheckWinner_of_none hcw l hl
      · intro hc
        rw [hft] at hc
        cases hc

lemma tttInv_reachable {s : TttState} (h : TttReachable s) : TttInv s := by
  induction h with
  | init mode p1 p2 => exact tttInv_init mode p1 p2
  | step t pos _ ih => exact tttInv_step t pos ih

/-- C8 counterexample: the reachable state `doubleWinState` (X plays
1, 3, 5, 7, 4; O plays 0, 2, 6, 8) is finished with the symbol winner X
while TWO of the 8 winning lines — the middle row and the middle column —
hold three equal non-empty symbols, refuting "at most one winning line". -/
theorem double_win_state_reachable :
    TttReachable doubleWinState ∧ doubleWinState.finished = true ∧
      doubleWinState.winner = some "X" ∧
      2 ≤ (tttWinLines.filter
        (fun l => tttLineWin doubleWinState.board l)).length := by
  refine ⟨?_, by decide, by decide, by decide⟩
  unfold doubleWinState doubleWinMoves
  simp only [List.foldl]
  exact TttReachable.step _ _ (TttReachable.step _ _ (TttReachable.step _ _ (TttReachable.step _ _ (TttReachable.step _ _ (TttReachable.step _ _ (TttReachable.step _ _ (TttReachable.step _ _ (TttReachable.step _ _ (TttReachable.init "versus" "A" "B")))))))))

/-- C8 (amended): in every tic-tac-toe state reachable from the initial
state by `_ttt_do_move` calls, if `finished` is true with a symbol
(non-draw) winner, then every one of the 8 winning lines holding three
equal non-empty symbols holds the winner's own symbol; more than one such
line may exist, since the winning move can complete two lines at once. -/
theorem reachable_win_lines_hold_winner (s : TttState)
    (hr : TttReachable s) (hf : s.finished = true) (w : String)
    (hw : s.winner = some w) (hwd : w ≠ "draw") :
    ∀ l ∈ tttWinLines, tttLineWin s.board l = true →
      s.board.getD l.1 "" = w :=
  (tttInv_reachable hr).2 hf w hw hwd

/-- Witness for C8's amended theorem: in the double-win state both
completed lines hold X, the winner's symbol. -/
theorem reachable_win_lines_hold_winner_witness :
    doubleWinState.board.getD 3 "" = "X" ∧
      doubleWinState.board.getD 1 "" = "X" := by
  have hr : TttReachable doubleWinState := by
    unfold doubleWinState doubleWinMoves
    simp only [List.foldl]
    exact TttReachable.step _ _ (TttReachable.step _ _ (TttReachable.step _ _ (TttReachable.step _ _ (TttReachable.step _ _ (TttReachable.step _ _ (TttReachable.step _ _ (TttReachable.step _ _ (TttReachable.step _ _ (TttReachable.init "versus" "A" "B")))))))))
  exact ⟨reachable_win_lines_hold_winner doubleWinState hr (by decide) "X"
      (by decide) (by decide) (3, 4, 5) (by decide) (by decide),
    reachable_win_lines_hold_winner doubleWinState hr (by decide) "X"
      (by decide) (by decide) (1, 4, 7) (by decide) (by decide)⟩

end Qualopais
